import Mathlib

/-!
Shallow embedding of the kitd process supervisor (src/kitd.c) and proofs
about it.  Byte values are modelled as `Nat` (0 is NUL, 10 is the
newline), durations as the BSD `struct timespec`, and the individual
steps of the supervision loop as pure functions on explicit state.
-/

namespace Kitd

/-- OpenBSD `struct timespec`: seconds and nanoseconds. -/
structure Timespec where
  tv_sec : Int
  tv_nsec : Int
deriving DecidableEq, Repr

/-- The `timespecadd` macro from sys/time.h: componentwise sum with a
single nanosecond carry. -/
def timespecadd (a b : Timespec) : Timespec :=
  let s := a.tv_sec + b.tv_sec
  let ns := a.tv_nsec + b.tv_nsec
  if ns ≥ 1000000000 then ⟨s + 1, ns - 1000000000⟩ else ⟨s, ns⟩

/-- The `timespecsub` macro from sys/time.h: componentwise difference
with a single nanosecond borrow. -/
def timespecsub (a b : Timespec) : Timespec :=
  let s := a.tv_sec - b.tv_sec
  let ns := a.tv_nsec - b.tv_nsec
  if ns < 0 then ⟨s - 1, ns + 1000000000⟩ else ⟨s, ns⟩

/-- The `timespeccmp(a, b, >=)` macro from sys/time.h. -/
def timespecGE (a b : Timespec) : Bool :=
  if a.tv_sec = b.tv_sec then a.tv_nsec ≥ b.tv_nsec else a.tv_sec ≥ b.tv_sec

/-- Signal numbers on OpenBSD, where kitd runs. -/
def SIGHUP : Nat := 1
def SIGINT : Nat := 2
def SIGTERM : Nat := 15
def SIGCHLD : Nat := 20
def SIGINFO : Nat := 29
def SIGUSR1 : Nat := 30
def SIGUSR2 : Nat := 31

/-- The option string kitd passes to getopt (kitd.c:101).  There is no
`m` option. -/
def optstring : List Char := ['c', ':', 'd', 'n', ':', 't', ':']

/-- `strtoul(s, NULL, 10)` restricted to plain digit strings (the form
interval arguments take): accumulate leading decimal digits, return the
value and the rest of the string. -/
def strtoulAux : List Char → Nat → Nat × List Char
  | [], acc => (acc, [])
  | c :: cs, acc =>
    if c.isDigit then strtoulAux cs (acc * 10 + (c.toNat - 48))
    else (acc, c :: cs)

def strtoul10 (s : List Char) : Nat × List Char := strtoulAux s 0

/-- `parseInterval` from kitd.c:88.  The whole argument is taken as a
count of milliseconds; `strtoul` stops silently at the first non-digit
byte, so any suffix is ignored. -/
def parseInterval (s : List Char) : Timespec :=
  let ms := (strtoul10 s).1
  ⟨(ms / 1000 : Nat), (1000000 * (ms % 1000) : Nat)⟩

/-- Modelled from the spec (section 4.1), for comparison with the code's
`parseInterval`: the first non-digit byte selects a unit (`s`, `m`, `h`,
`d`), end-of-string means milliseconds, and any other byte is a fatal
configuration error. -/
def parseIntervalSpec (s : List Char) : Except Unit Timespec :=
  let n := (strtoul10 s).1
  match (strtoul10 s).2 with
  | [] => .ok ⟨(n / 1000 : Nat), (1000000 * (n % 1000) : Nat)⟩
  | c :: _ =>
    if c = 's' then .ok ⟨(n : Nat), 0⟩
    else if c = 'm' then .ok ⟨(n * 60 : Nat), 0⟩
    else if c = 'h' then .ok ⟨(n * 3600 : Nat), 0⟩
    else if c = 'd' then .ok ⟨(n * 86400 : Nat), 0⟩
    else .error ()

/-- Log records the supervisor emits; the syslog priority is fixed by
the constructor (`readErr` is LOG_ERR, `childExited` and
`childGotSignal` are LOG_NOTICE, `restartingIn` is LOG_INFO). -/
inductive LogMsg where
  | readErr
  | childExited (code : Nat)
  | childGotSignal (sig : Nat)
  | restartingIn (t : Timespec)
deriving DecidableEq, Repr

/-- Inputs of the backoff computation run after a reap (kitd.c:231-237):
the current clock, the instant the child was started, the running
doubled interval, and the configured initial restart and cooloff
intervals. -/
structure BackoffIn where
  now : Timespec
  startedAt : Timespec
  interval : Timespec
  restart : Timespec
  cooloff : Timespec
deriving DecidableEq, Repr

/-- Outputs of the backoff computation: the measured uptime, the delay
announced by the "restarting in" log line and used for the deadline, the
new deadline, and the interval kept for the following cycle. -/
structure BackoffOut where
  uptime : Timespec
  announced : Timespec
  deadline : Timespec
  interval : Timespec
deriving DecidableEq, Repr

/-- The backoff step from kitd.c:231-237: measure uptime, reset the
interval to `restart` when `uptime >= cooloff`, announce and apply the
(pre-doubling) interval, then double it for the next cycle.  There is no
`maximum` variable: the doubling is uncapped. -/
def backoffStep (i : BackoffIn) : BackoffOut :=
  let uptime := timespecsub i.now i.startedAt
  let itv := if timespecGE uptime i.cooloff then i.restart else i.interval
  { uptime := uptime
    announced := itv
    deadline := timespecadd i.now itv
    interval := timespecadd itv itv }

/-- The delays announced for `n` successive immediate exits (uptime 0),
obtained by iterating `backoffStep` with `now = startedAt = 0`. -/
def announcedDelays (cooloff restart interval : Timespec) : Nat → List Timespec
  | 0 => []
  | n + 1 =>
    let o := backoffStep
      { now := ⟨0, 0⟩, startedAt := ⟨0, 0⟩, interval := interval,
        restart := restart, cooloff := cooloff }
    o.announced :: announcedDelays cooloff restart o.interval n

/-- Child wait status, as decoded by WIFEXITED / WIFSIGNALED. -/
inductive WaitStatus where
  | exited (code : Nat)
  | signaled (sig : Nat)
deriving DecidableEq, Repr

/-- The status handling of the reap branch (kitd.c:219-228): exit code
127 sets `stop`; a non-zero exit code is logged; termination by a signal
other than SIGTERM is logged.  The suppression test is `sig != SIGTERM`
and consults no other state. -/
def reapStatus (status : WaitStatus) (stop : Bool) : Bool × List LogMsg :=
  match status with
  | .exited code =>
    (stop || decide (code = 127),
     if code ≠ 0 then [.childExited code] else [])
  | .signaled sig =>
    (stop, if sig ≠ SIGTERM then [.childGotSignal sig] else [])

/-- Modelled from the spec, for comparison with `reapStatus`: the spec
says the notice for a signaled child is suppressed exactly when the
terminating signal is the one the supervisor just forwarded during
shutdown (`forwarded`); outside shutdown nothing was forwarded. -/
def signalNoticeSpec (forwarded : Option Nat) (sig : Nat) : Bool :=
  decide (forwarded ≠ some sig)

/-- Inputs of the SIGINT/SIGTERM drain (kitd.c:194-203). -/
structure IntTermIn where
  sigint : Bool
  sigterm : Bool
  childAlive : Bool
  stop : Bool
deriving DecidableEq, Repr

/-- Outputs of the SIGINT/SIGTERM drain: the new stop flag, the signal
forwarded to the child's process group (if any), whether the loop broke,
and the new pending flags. -/
structure IntTermOut where
  stop : Bool
  forwarded : Option Nat
  brk : Bool
  sigint : Bool
  sigterm : Bool
deriving DecidableEq, Repr

/-- The SIGINT/SIGTERM drain from kitd.c:194-203: when either flag is
pending, set `stop`, pick SIGINT if it is pending and SIGTERM otherwise;
with a live child forward that signal and clear only its own flag; with
no child break out of the loop before any flag is cleared. -/
def intTermStep (i : IntTermIn) : IntTermOut :=
  if i.sigint || i.sigterm then
    let sig := if i.sigint then SIGINT else SIGTERM
    if i.childAlive then
      { stop := true
        forwarded := some sig
        brk := false
        sigint := if sig = SIGINT then false else i.sigint
        sigterm := if sig = SIGTERM then false else i.sigterm }
    else
      { stop := true, forwarded := none, brk := true,
        sigint := i.sigint, sigterm := i.sigterm }
  else
    { stop := i.stop, forwarded := none, brk := false,
      sigint := i.sigint, sigterm := i.sigterm }

/-- The signals for which kitd.c:145-151 installs `signalHandler`. -/
def handledSignals : List Nat :=
  [SIGHUP, SIGINT, SIGTERM, SIGCHLD, SIGINFO, SIGUSR1, SIGUSR2]

/-- The calls in kitd's `main` that touch a signal mask. -/
inductive MaskCall where
  | sigemptysetLocal
  | sigprocmaskBlock (m : List Nat)
  | ppollSwap (m : List Nat)
deriving DecidableEq, Repr

/-- The mask-touching calls `main` performs, in order: the single
`sigemptyset(&mask)` at kitd.c:160 building the (empty) set handed to
`ppoll` at kitd.c:248.  `main` never calls `sigprocmask` or
`pthread_sigmask`. -/
def mainMaskCalls : List MaskCall :=
  [.sigemptysetLocal, .ppollSwap []]

/-- The set of signals blocked in the main thread outside the wait:
the default (empty) mask updated by each `sigprocmask` block call.
`ppoll`'s mask argument only takes effect inside the wait. -/
def blockedOutsideWait (calls : List MaskCall) : List Nat :=
  calls.foldl
    (fun acc c => match c with
      | .sigprocmaskBlock m => acc ++ m
      | _ => acc)
    []

/-- The mask installed for the duration of the `ppoll` wait: the last
`ppollSwap` argument, or the outside mask if there is none. -/
def maskDuringWait (calls : List MaskCall) : List Nat :=
  calls.foldl
    (fun acc c => match c with
      | .ppollSwap m => m
      | _ => acc)
    (blockedOutsideWait calls)

/-! ### LineBuffer (kitd.c:32-63)

The buffer content is the list of its `len` unflushed bytes; the
capacity of the underlying array is 1024, so at most 1023 bytes are ever
unflushed (`lbFill` reads at most `1023 - len` bytes).  Flushing NUL
terminates the content and walks it with `strchr(ptr, 10)`, so the
search for a newline stops at any NUL byte contained in the data. -/

/-- `strchr(ptr, 10)` on the NUL-terminated buffer content: locate the
first newline occurring before any NUL byte and split around it. -/
def strchrNL : List Nat → Option (List Nat × List Nat)
  | [] => none
  | c :: cs =>
    if c = 0 then none
    else if c = 10 then some ([], cs)
    else
      match strchrNL cs with
      | some (p, s) => some (c :: p, s)
      | none => none

theorem strchrNL_split {l : List Nat} {ps : List Nat × List Nat}
    (h : strchrNL l = some ps) :
    l = ps.1 ++ 10 :: ps.2 ∧ 10 ∉ ps.1 ∧ 0 ∉ ps.1 := by
  induction l generalizing ps with
  | nil => simp [strchrNL] at h
  | cons c cs ih =>
    simp only [strchrNL] at h
    by_cases h0 : c = 0
    · simp [h0] at h
    · by_cases h10 : c = 10
      · rw [if_neg h0, if_pos h10] at h
        cases h
        subst h10
        simp
      · rw [if_neg h0, if_neg h10] at h
        cases hrec : strchrNL cs with
        | none => rw [hrec] at h; exact absurd h (by simp)
        | some qs =>
          obtain ⟨p, s⟩ := qs
          rw [hrec] at h
          simp only [Option.some.injEq] at h
          subst h
          obtain ⟨he, h1, h2⟩ := ih hrec
          refine ⟨by simpa using he, ?_, ?_⟩
          · simp only [List.mem_cons, not_or]
            exact ⟨fun hh => h10 hh.symm, h1⟩
          · simp only [List.mem_cons, not_or]
            exact ⟨fun hh => h0 hh.symm, h2⟩

theorem strchrNL_snd_length {l : List Nat} {ps : List Nat × List Nat}
    (h : strchrNL l = some ps) : ps.2.length < l.length := by
  have := (strchrNL_split h).1
  subst this
  simp
  omega

theorem strchrNL_none_no_nl {l : List Nat}
    (h : strchrNL l = none) (h0 : (0 : Nat) ∉ l) : (10 : Nat) ∉ l := by
  induction l with
  | nil => simp
  | cons c cs ih =>
    simp only [strchrNL] at h
    simp at h0
    by_cases hc0 : c = 0
    · exact absurd hc0.symm h0.1
    · by_cases hc10 : c = 10
      · simp [hc0, hc10] at h
      · simp only [hc0, hc10, if_false] at h
        cases hrec : strchrNL cs with
        | none =>
          simp
          exact ⟨fun hc => hc10 hc.symm, ih hrec h0.2⟩
        | some qs => simp [hrec] at h

/-- The newline-scanning loop of `lbFlush` (kitd.c:56-60): peel off each
newline-terminated prefix as one record, keep the remainder. -/
def lbFlushLines (l : List Nat) : List (List Nat) × List Nat :=
  match h : strchrNL l with
  | none => ([], l)
  | some ps =>
    let r := lbFlushLines ps.2
    (ps.1 :: r.1, r.2)
termination_by l.length
decreasing_by exact strchrNL_snd_length h

/-- A record as emitted by `lbFlush`: a `line` record is the body of a
newline-terminated line (the newline is dropped), a `whole` record is
the full-buffer forced flush. -/
inductive Rec where
  | line (bytes : List Nat)
  | whole (bytes : List Nat)
deriving DecidableEq, Repr

def restoreRec : Rec → List Nat
  | .line b => b ++ [10]
  | .whole b => b

/-- Reattach the newlines dropped by `line` records; a `whole` record
kept its bytes verbatim. -/
def restoreRecs (rs : List Rec) : List Nat := (rs.map restoreRec).flatten

/-- The bytes `syslog("%s", buf)` actually sends: the content up to the
first NUL byte. -/
def cstring (l : List Nat) : List Nat := l.takeWhile (fun c => c ≠ 0)

/-- `lbFlush` from kitd.c:46-63 (the syslog side effects reified as the
returned record list).  When the buffer is full (`len == 1023`, checked
before any newline scan) the entire content is emitted as one record —
`syslog("%s", buf)` sends the bytes up to the first NUL — and the buffer
is emptied; otherwise each newline-terminated prefix is emitted as one
record and the remainder is kept. -/
def lbFlush (l : List Nat) : List Rec × List Nat :=
  if l.length = 1023 then
    ([Rec.whole (cstring l)], [])
  else
    let r := lbFlushLines l
    (r.1.map Rec.line, r.2)

/-- Result of the non-blocking `read` in `lbFill`: some bytes (possibly
none), EAGAIN, or another error. -/
inductive ReadResult where
  | bytes (bs : List Nat)
  | eagain
  | fail
deriving DecidableEq, Repr

/-- The capacity `lbFill` passes to `read` (kitd.c:38):
`sizeof(lb->buf) - 1 - lb->len`. -/
def lbFillCap (l : List Nat) : Nat := 1024 - 1 - l.length

/-- `lbFill` from kitd.c:37-44: append whatever `read` returned; EAGAIN
is silent and leaves the buffer unchanged; any other read error logs one
LOG_ERR record and leaves the buffer unchanged. -/
def lbFill (l : List Nat) (r : ReadResult) : List Nat × List LogMsg :=
  match r with
  | .bytes bs => (l ++ bs, [])
  | .eagain => (l, [])
  | .fail => (l, [.readErr])

/-- One poll wake-up for one stream, as performed at kitd.c:254-261:
`lbFill` with the bytes drained from the pipe, then `lbFlush`. -/
def fillFlush (l : List Nat) (chunk : List Nat) : List Rec × List Nat :=
  lbFlush (l ++ chunk)

/-- A whole run of wake-ups against one stream, starting from buffer
`buf`: records emitted in order and the final buffer content. -/
def runChunks (buf : List Nat) : List (List Nat) → List Rec × List Nat
  | [] => ([], buf)
  | c :: cs =>
    let f := fillFlush buf c
    let r := runChunks f.2 cs
    (f.1 ++ r.1, r.2)

/-- The exit sequence at kitd.c:281-284: a final `lbFill` and `lbFlush`
on the stdout buffer and on the stderr buffer. -/
def exitSequence (outBuf errBuf outResid errResid : List Nat) :
    (List Rec × List Nat) × (List Rec × List Nat) :=
  (lbFlush ((lbFill outBuf (.bytes outResid)).1),
   lbFlush ((lbFill errBuf (.bytes errResid)).1))

/-! ### LineBuffer lemmas -/

/-- Reattach the dropped newline after each of the line bodies `rs`,
followed by a remainder `t`. -/
def restoreLines (rs : List (List Nat)) (t : List Nat) : List Nat :=
  rs.foldr (fun r acc => r ++ 10 :: acc) t

theorem strchrNL_nil : strchrNL [] = none := rfl

theorem lbFlushLines_eq_none {l : List Nat} (h : strchrNL l = none) :
    lbFlushLines l = ([], l) := by
  rw [lbFlushLines]
  split
  · rfl
  · rename_i ps hps
    rw [h] at hps
    exact absurd hps (by simp)

theorem lbFlushLines_eq_some {l : List Nat} {ps : List Nat × List Nat}
    (h : strchrNL l = some ps) :
    lbFlushLines l =
      (ps.1 :: (lbFlushLines ps.2).1, (lbFlushLines ps.2).2) := by
  rw [lbFlushLines]
  split
  · rename_i hn
    rw [h] at hn
    exact absurd hn (by simp)
  · rename_i qs hqs
    rw [h] at hqs
    cases hqs
    rfl

theorem lbFlushLines_restore_aux (n : Nat) :
    ∀ l : List Nat, l.length ≤ n →
      restoreLines (lbFlushLines l).1 (lbFlushLines l).2 = l := by
  induction n with
  | zero =>
    intro l hl
    have hnil : l = [] := List.length_eq_zero.mp (Nat.le_zero.mp hl)
    subst hnil
    rw [lbFlushLines_eq_none strchrNL_nil]
    rfl
  | succ n ih =>
    intro l hl
    cases hrec : strchrNL l with
    | none =>
      rw [lbFlushLines_eq_none hrec]
      simp [restoreLines]
    | some ps =>
      rw [lbFlushLines_eq_some hrec]
      have hlen : ps.2.length ≤ n := by
        have := strchrNL_snd_length hrec
        omega
      show ps.1 ++ 10 :: restoreLines (lbFlushLines ps.2).1 (lbFlushLines ps.2).2 = l
      rw [ih ps.2 hlen]
      exact ((strchrNL_split hrec).1).symm

/-- The scan loop loses no byte: putting the dropped newlines back after
each emitted line body and appending the kept remainder reproduces the
buffer content. -/
theorem lbFlushLines_restore (l : List Nat) :
    restoreLines (lbFlushLines l).1 (lbFlushLines l).2 = l :=
  lbFlushLines_restore_aux l.length l le_rfl

theorem lbFlushLines_recs_aux (n : Nat) :
    ∀ l : List Nat, l.length ≤ n →
      ∀ r ∈ (lbFlushLines l).1, (10 : Nat) ∉ r ∧ (0 : Nat) ∉ r := by
  induction n with
  | zero =>
    intro l hl
    have hnil : l = [] := List.length_eq_zero.mp (Nat.le_zero.mp hl)
    subst hnil
    rw [lbFlushLines_eq_none strchrNL_nil]
    simp
  | succ n ih =>
    intro l hl
    cases hrec : strchrNL l with
    | none =>
      rw [lbFlushLines_eq_none hrec]
      simp
    | some ps =>
      rw [lbFlushLines_eq_some hrec]
      intro r hr
      have hlen : ps.2.length ≤ n := by
        have := strchrNL_snd_length hrec
        omega
      rcases List.mem_cons.mp hr with hhead | htail
      · subst hhead
        exact ⟨(strchrNL_split hrec).2.1, (strchrNL_split hrec).2.2⟩
      · exact ih ps.2 hlen r htail

/-- Every line body the scan loop emits contains neither a newline nor a
NUL byte. -/
theorem lbFlushLines_recs (l : List Nat) :
    ∀ r ∈ (lbFlushLines l).1, (10 : Nat) ∉ r ∧ (0 : Nat) ∉ r :=
  lbFlushLines_recs_aux l.length l le_rfl

theorem lbFlushLines_rem_aux (n : Nat) :
    ∀ l : List Nat, l.length ≤ n →
      strchrNL (lbFlushLines l).2 = none := by
  induction n with
  | zero =>
    intro l hl
    have hnil : l = [] := List.length_eq_zero.mp (Nat.le_zero.mp hl)
    subst hnil
    rw [lbFlushLines_eq_none strchrNL_nil]
    exact strchrNL_nil
  | succ n ih =>
    intro l hl
    cases hrec : strchrNL l with
    | none =>
      rw [lbFlushLines_eq_none hrec]
      exact hrec
    | some ps =>
      rw [lbFlushLines_eq_some hrec]
      have hlen : ps.2.length ≤ n := by
        have := strchrNL_snd_length hrec
        omega
      exact ih ps.2 hlen

/-- After the scan loop, the kept remainder holds no newline reachable
by `strchr` (no newline before the first NUL byte). -/
theorem lbFlushLines_rem (l : List Nat) : strchrNL (lbFlushLines l).2 = none :=
  lbFlushLines_rem_aux l.length l le_rfl

theorem restoreLines_eq_append (rs : List (List Nat)) (t : List Nat) :
    restoreLines rs t = restoreRecs (rs.map Rec.line) ++ t := by
  induction rs with
  | nil => simp [restoreLines, restoreRecs]
  | cons p ps ih =>
    show p ++ 10 :: restoreLines ps t = _
    rw [ih]
    simp [restoreRecs, restoreRec]

theorem cstring_eq {l : List Nat} (h : (0 : Nat) ∉ l) : cstring l = l := by
  induction l with
  | nil => rfl
  | cons c cs ih =>
    simp only [List.mem_cons, not_or] at h
    unfold cstring at ih ⊢
    rw [List.takeWhile_cons]
    have hc : decide (c ≠ 0) = true := by
      simp only [decide_eq_true_eq]
      exact fun hh => h.1 hh.symm
    simp only [hc, if_true]
    rw [ih h.2]

/-- No byte of the buffer escapes `lbFlush`: restoring the dropped
newlines of the line records and appending the kept buffer reproduces
the pre-flush content (for NUL-free content). -/
theorem lbFlush_restore {l : List Nat} (h0 : (0 : Nat) ∉ l) :
    restoreRecs (lbFlush l).1 ++ (lbFlush l).2 = l := by
  unfold lbFlush
  by_cases hfull : l.length = 1023
  · simp only [hfull, if_pos rfl]
    simp [restoreRecs, restoreRec, cstring_eq h0]
  · simp only [if_neg hfull]
    rw [← restoreLines_eq_append]
    exact lbFlushLines_restore l

/-- Shape of each record `lbFlush` emits on NUL-free content: a `line`
record holds no newline, a `whole` record is exactly the 1023 bytes of
the full buffer. -/
theorem lbFlush_recs {l : List Nat} (h0 : (0 : Nat) ∉ l) :
    ∀ r ∈ (lbFlush l).1,
      (∀ b, r = Rec.line b → (10 : Nat) ∉ b) ∧
      (∀ b, r = Rec.whole b → b.length = 1023) := by
  unfold lbFlush
  by_cases hfull : l.length = 1023
  · simp only [hfull, if_pos rfl]
    intro r hr
    simp at hr
    subst hr
    refine ⟨by simp, ?_⟩
    intro b hb
    simp at hb
    rw [← hb, cstring_eq h0, hfull]
  · simp only [if_neg hfull]
    intro r hr
    simp only [List.mem_map] at hr
    obtain ⟨b, hb, hrb⟩ := hr
    subst hrb
    refine ⟨?_, by simp⟩
    intro b' hb'
    simp at hb'
    subst hb'
    exact (lbFlushLines_recs l b hb).1

/-- `lbFlush` keeps only NUL-free bytes when given NUL-free content. -/
theorem lbFlush_rem_no_zero {l : List Nat} (h0 : (0 : Nat) ∉ l) :
    (0 : Nat) ∉ (lbFlush l).2 := by
  intro hmem
  apply h0
  rw [← lbFlush_restore h0]
  exact List.mem_append.mpr (Or.inr hmem)

/-- After `lbFlush`, the kept buffer contains no newline (for NUL-free
content). -/
theorem lbFlush_rem_no_nl {l : List Nat} (h0 : (0 : Nat) ∉ l) :
    (10 : Nat) ∉ (lbFlush l).2 := by
  unfold lbFlush
  by_cases hfull : l.length = 1023
  · simp [hfull]
  · simp only [if_neg hfull]
    exact strchrNL_none_no_nl (lbFlushLines_rem l)
      (by
        have := lbFlush_rem_no_zero h0
        unfold lbFlush at this
        simpa [if_neg hfull] using this)

/-- The kept buffer never grows across a flush. -/
theorem lbFlush_rem_length {l : List Nat} :
    (lbFlush l).2.length ≤ l.length := by
  unfold lbFlush
  by_cases hfull : l.length = 1023
  · simp [hfull]
  · simp only [if_neg hfull]
    have := lbFlushLines_restore l
    rw [restoreLines_eq_append] at this
    have hlen := congrArg List.length this
    simp at hlen
    omega

theorem restoreRecs_append (a b : List Rec) :
    restoreRecs (a ++ b) = restoreRecs a ++ restoreRecs b := by
  simp [restoreRecs]

/-- When the buffer is not full, every record `lbFlush` emits is a line
record. -/
theorem lbFlush_recs_line {l : List Nat} (hfull : l.length ≠ 1023) :
    ∀ r ∈ (lbFlush l).1, ∃ b, r = Rec.line b := by
  unfold lbFlush
  rw [if_neg hfull]
  intro r hr
  simp only [List.mem_map] at hr
  obtain ⟨b, hb, hrb⟩ := hr
  exact ⟨b, hrb.symm⟩

/-- Main trace lemma: over any run of fill/flush wake-ups on NUL-free
input, the emitted records (newlines restored after line records)
followed by the final buffer content reproduce the whole source stream,
every line record is newline-free, and every forced whole-buffer record
is exactly 1023 bytes long. -/
theorem runChunks_spec :
    ∀ (chunks : List (List Nat)) (buf : List Nat),
      (0 : Nat) ∉ buf → (∀ c ∈ chunks, (0 : Nat) ∉ c) →
      restoreRecs (runChunks buf chunks).1 ++ (runChunks buf chunks).2 =
        buf ++ chunks.flatten
      ∧ ∀ r ∈ (runChunks buf chunks).1,
          (∀ b, r = Rec.line b → (10 : Nat) ∉ b) ∧
          (∀ b, r = Rec.whole b → b.length = 1023) := by
  intro chunks
  induction chunks with
  | nil =>
    intro buf h0 hc
    simp [runChunks, restoreRecs]
  | cons c cs ih =>
    intro buf h0 hc
    have h0' : (0 : Nat) ∉ buf ++ c := by
      simp only [List.mem_append, not_or]
      exact ⟨h0, hc c (List.mem_cons_self c cs)⟩
    have hrem0 := lbFlush_rem_no_zero h0'
    obtain ⟨ihre, ihrecs⟩ :=
      ih (lbFlush (buf ++ c)).2 hrem0 (fun d hd => hc d (List.mem_cons_of_mem _ hd))
    simp only [runChunks, fillFlush]
    constructor
    · rw [restoreRecs_append, List.append_assoc, ihre, ← List.append_assoc,
        lbFlush_restore h0']
      simp
    · intro r hr
      rcases List.mem_append.mp hr with h1 | h2
      · exact lbFlush_recs h0' r h1
      · exact ihrecs r h2

/-! ### Claims -/

/-- Claim C1 (code bug): the spec and the manual page say the doubled
delay is capped at `maximum` (default 1h, flag `-m`), giving delays
10m, 20m, 40m, 1h, 1h, 1h for `restart = 10m`.  The code has no maximum
variable and no `m` option: with restart 600s and the default cooloff
900s, six successive immediate exits announce 600s, 1200s, 2400s,
4800s, 9600s, 19200s — the fourth delay is 80 minutes, not 1 hour, and
the doubling never stops. -/
theorem c1_backoff_doubles_without_maximum :
    announcedDelays ⟨900, 0⟩ ⟨600, 0⟩ ⟨600, 0⟩ 6 =
      [⟨600, 0⟩, ⟨1200, 0⟩, ⟨2400, 0⟩, ⟨4800, 0⟩, ⟨9600, 0⟩, ⟨19200, 0⟩]
    ∧ announcedDelays ⟨900, 0⟩ ⟨600, 0⟩ ⟨600, 0⟩ 6 ≠
      [⟨600, 0⟩, ⟨1200, 0⟩, ⟨2400, 0⟩, ⟨3600, 0⟩, ⟨3600, 0⟩, ⟨3600, 0⟩] := by
  decide

/-- Claim C2 (code bug): the spec and the manual page give the interval
grammar suffixes `s`, `m`, `h`, `d`, milliseconds when absent, and a
fatal error otherwise.  The code's `parseInterval` ignores everything
after the digits: `10s` parses as 10 milliseconds instead of 10 seconds,
the garbage suffix `5x` is accepted as 5 milliseconds instead of being a
fatal error, and getopt accepts no `m` flag at all. -/
theorem c2_parseInterval_ignores_suffix :
    parseInterval ['1', '0', 's'] = ⟨0, 10000000⟩
    ∧ parseIntervalSpec ['1', '0', 's'] = .ok ⟨10, 0⟩
    ∧ (⟨0, 10000000⟩ : Timespec) ≠ ⟨10, 0⟩
    ∧ parseIntervalSpec ['5', 'x'] = .error ()
    ∧ parseInterval ['5', 'x'] = ⟨0, 5000000⟩
    ∧ 'm' ∉ optstring := by
  refine ⟨by decide, rfl, by decide, rfl, by decide, by decide⟩

/-- A full buffer that does contain a newline: `a`, newline, then 1021
copies of `c`. -/
def fullBufC3 : List Nat := 97 :: 10 :: List.replicate 1021 99

/-- Claim C3 counterexample: `lbFlush` tests for a full buffer before
scanning for newlines, so a full 1023-byte buffer containing a newline
is emitted whole as a single record (newline included, nothing split
into lines), contradicting the claim that the whole buffer is emitted
only when it contains no newline and that every record is one complete
line. -/
theorem c3_counterexample :
    lbFlush fullBufC3 = ([Rec.whole fullBufC3], [])
    ∧ (10 : Nat) ∈ fullBufC3
    ∧ fullBufC3.length = 1023 := by
  have h0 : (0 : Nat) ∉ fullBufC3 := by
    unfold fullBufC3
    intro hmem
    rcases List.mem_cons.mp hmem with hc | hmem
    · exact absurd hc (by decide)
    rcases List.mem_cons.mp hmem with hc | hmem
    · exact absurd hc (by decide)
    · exact absurd (List.mem_replicate.mp hmem).2 (by decide)
  have hlen : fullBufC3.length = 1023 := by
    unfold fullBufC3
    rw [List.length_cons, List.length_cons, List.length_replicate]
  have h10 : (10 : Nat) ∈ fullBufC3 := by
    unfold fullBufC3
    exact List.mem_cons_of_mem _ (List.mem_cons_self _ _)
  refine ⟨?_, h10, hlen⟩
  unfold lbFlush
  rw [if_pos hlen, cstring_eq h0]

/-- Claim C3 (amended): for every sequence of fill/flush operations on
NUL-free input, each emitted record is either one complete
newline-terminated line (newline dropped) or the entire full buffer of
1023 bytes — the forced whole-buffer flush fires whenever the buffer is
full at flush entry, even if it contains a newline, in which case the
record keeps its embedded newlines.  No two records share source bytes
and no byte is lost: re-inserting the dropped newline after each line
record and appending the final buffer reproduces the source stream. -/
theorem c3_records_partition_stream (chunks : List (List Nat))
    (h : ∀ c ∈ chunks, (0 : Nat) ∉ c) :
    restoreRecs (runChunks [] chunks).1 ++ (runChunks [] chunks).2 =
      chunks.flatten
    ∧ ∀ r ∈ (runChunks [] chunks).1,
        (∀ b, r = Rec.line b → (10 : Nat) ∉ b) ∧
        (∀ b, r = Rec.whole b → b.length = 1023) := by
  have := runChunks_spec chunks [] (by simp) h
  simpa using this

/-- Concrete instantiation of the amended C3 theorem at the chunk
sequence `[a, newline, b]`. -/
theorem c3_records_partition_stream_witness :
    (∀ c ∈ [[97, 10, 98]], (0 : Nat) ∉ c)
    ∧ (restoreRecs (runChunks [] [[97, 10, 98]]).1 ++
          (runChunks [] [[97, 10, 98]]).2 = [[97, 10, 98]].flatten
       ∧ ∀ r ∈ (runChunks [] [[97, 10, 98]]).1,
          (∀ b, r = Rec.line b → (10 : Nat) ∉ b) ∧
          (∀ b, r = Rec.whole b → b.length = 1023)) :=
  ⟨by decide, c3_records_partition_stream [[97, 10, 98]] (by decide)⟩

/-- Claim C4 counterexample: the claim says every handled signal is
blocked in the main thread outside the `ppoll` wait, but SIGCHLD — a
handled signal — is not in the set of signals `main` ever blocks, since
`main` never calls `sigprocmask` at all. -/
theorem c4_counterexample :
    SIGCHLD ∈ handledSignals
    ∧ SIGCHLD ∉ blockedOutsideWait mainMaskCalls := by
  decide

/-- Claim C4 (amended): no handled signal is ever blocked.  `main`'s
only mask manipulation is `sigemptyset(&mask)` on the local set handed
to `ppoll`, so the mask outside the wait is the unmodified (empty)
process mask and the mask installed during the wait is equally empty:
the wait does substitute an empty mask, but there is no block to
restore, and a handler can run between testing a pending flag and
entering the wait. -/
theorem c4_no_signal_blocking :
    blockedOutsideWait mainMaskCalls = []
    ∧ maskDuringWait mainMaskCalls = []
    ∧ ∀ s ∈ handledSignals, s ∉ blockedOutsideWait mainMaskCalls := by
  decide

/-- Claim C5 counterexample: the code suppresses the "child got signal"
notice exactly for SIGTERM, consulting no shutdown state.  A child
killed by SIGTERM outside any shutdown gets no notice although the
claim's rule (suppress only the signal just forwarded during shutdown)
requires one, and a child killed by SIGINT during an interrupt shutdown
gets a notice although the claim requires suppression. -/
theorem c5_counterexample :
    (reapStatus (.signaled SIGTERM) false).2 = []
    ∧ signalNoticeSpec none SIGTERM = true
    ∧ (reapStatus (.signaled SIGINT) true).2 = [.childGotSignal SIGINT]
    ∧ signalNoticeSpec (some SIGINT) SIGINT = false := by
  decide

/-- Claim C5 (amended): on reaping a signaled child the notice is
suppressed exactly when the terminating signal is SIGTERM, regardless of
whether a shutdown is in progress or which signal was forwarded; the
stop flag is unchanged by a signaled termination. -/
theorem c5_signal_notice_iff_not_sigterm (sig : Nat) (stop : Bool) :
    ((reapStatus (.signaled sig) stop).2 = [] ↔ sig = SIGTERM)
    ∧ (reapStatus (.signaled sig) stop).1 = stop := by
  unfold reapStatus
  by_cases h : sig = SIGTERM <;> simp [h]

/-- Claim C6 counterexample: a stdout stream whose residual pipe content
is `abc` with no trailing newline: the exit-time final fill and flush
emit no record at all — the unterminated tail stays in the buffer and is
discarded when the supervisor exits, contradicting the claim that it
still produces one log record. -/
theorem c6_counterexample :
    (exitSequence [] [] [97, 98, 99] []).1 = ([], [97, 98, 99]) := by
  show lbFlush ([] ++ [97, 98, 99]) = ([], [97, 98, 99])
  unfold lbFlush
  rw [if_neg (by decide)]
  rw [lbFlushLines_eq_none (by decide)]
  rfl

/-- Claim C6 (amended): on loop break the supervisor performs a final
fill and flush on both the stdout and stderr buffers; these emit exactly
the complete newline-terminated lines still pending (each record is a
newline-free line body, and restoring the newlines reproduces the
drained bytes), while a tail not terminated by a newline remains in the
buffer and yields no record. -/
theorem c6_final_flush_drains_lines
    (outBuf errBuf outResid errResid : List Nat)
    (ho : (0 : Nat) ∉ outBuf ++ outResid)
    (he : (0 : Nat) ∉ errBuf ++ errResid)
    (hlo : (outBuf ++ outResid).length ≠ 1023)
    (hle : (errBuf ++ errResid).length ≠ 1023) :
    restoreRecs (exitSequence outBuf errBuf outResid errResid).1.1 ++
        (exitSequence outBuf errBuf outResid errResid).1.2 =
      outBuf ++ outResid
    ∧ (∀ r ∈ (exitSequence outBuf errBuf outResid errResid).1.1,
        ∃ b, r = Rec.line b ∧ (10 : Nat) ∉ b)
    ∧ (10 : Nat) ∉ (exitSequence outBuf errBuf outResid errResid).1.2
    ∧ restoreRecs (exitSequence outBuf errBuf outResid errResid).2.1 ++
        (exitSequence outBuf errBuf outResid errResid).2.2 =
      errBuf ++ errResid
    ∧ (∀ r ∈ (exitSequence outBuf errBuf outResid errResid).2.1,
        ∃ b, r = Rec.line b ∧ (10 : Nat) ∉ b)
    ∧ (10 : Nat) ∉ (exitSequence outBuf errBuf outResid errResid).2.2 := by
  refine ⟨?_, ?_, ?_, ?_, ?_, ?_⟩
  · exact lbFlush_restore ho
  · intro r hr
    obtain ⟨b, hb⟩ := lbFlush_recs_line hlo r hr
    exact ⟨b, hb, (lbFlush_recs ho r hr).1 b hb⟩
  · exact lbFlush_rem_no_nl ho
  · exact lbFlush_restore he
  · intro r hr
    obtain ⟨b, hb⟩ := lbFlush_recs_line hle r hr
    exact ⟨b, hb, (lbFlush_recs he r hr).1 b hb⟩
  · exact lbFlush_rem_no_nl he

/-- Concrete instantiation of the amended C6 theorem: stdout buffer
holds `a`, the residual bytes are a newline then `b` (no trailing
newline); stderr is empty. -/
theorem c6_final_flush_drains_lines_witness :
    ((0 : Nat) ∉ [97] ++ [10, 98]
     ∧ (0 : Nat) ∉ ([] : List Nat) ++ []
     ∧ ([97] ++ [10, 98]).length ≠ 1023
     ∧ (([] : List Nat) ++ []).length ≠ 1023)
    ∧ (restoreRecs (exitSequence [97] [] [10, 98] []).1.1 ++
          (exitSequence [97] [] [10, 98] []).1.2 = [97] ++ [10, 98]
       ∧ (∀ r ∈ (exitSequence [97] [] [10, 98] []).1.1,
           ∃ b, r = Rec.line b ∧ (10 : Nat) ∉ b)
       ∧ (10 : Nat) ∉ (exitSequence [97] [] [10, 98] []).1.2
       ∧ restoreRecs (exitSequence [97] [] [10, 98] []).2.1 ++
           (exitSequence [97] [] [10, 98] []).2.2 = ([] : List Nat) ++ []
       ∧ (∀ r ∈ (exitSequence [97] [] [10, 98] []).2.1,
           ∃ b, r = Rec.line b ∧ (10 : Nat) ∉ b)
       ∧ (10 : Nat) ∉ (exitSequence [97] [] [10, 98] []).2.2) :=
  ⟨⟨by decide, by decide, by decide, by decide⟩,
   c6_final_flush_drains_lines [97] [] [10, 98] []
     (by decide) (by decide) (by decide) (by decide)⟩

/-- Claim C7 (confirmed): whenever the measured uptime is at least the
cooloff (equality included), the delay announced by "restarting in" and
the delay applied to the deadline both equal the initial restart
interval, not the accumulated doubled value. -/
theorem c7_cooloff_resets_backoff (i : BackoffIn)
    (h : timespecGE (timespecsub i.now i.startedAt) i.cooloff = true) :
    (backoffStep i).announced = i.restart
    ∧ (backoffStep i).deadline = timespecadd i.now i.restart := by
  unfold backoffStep
  simp [h]

/-- Concrete instantiation of C7 at the boundary: uptime exactly equal
to the cooloff (900 s each) resets the delay from 64 s back to 1 s. -/
theorem c7_cooloff_resets_backoff_witness :
    timespecGE (timespecsub ⟨900, 0⟩ ⟨0, 0⟩) ⟨900, 0⟩ = true
    ∧ ((backoffStep ⟨⟨900, 0⟩, ⟨0, 0⟩, ⟨64, 0⟩, ⟨1, 0⟩, ⟨900, 0⟩⟩).announced =
        ⟨1, 0⟩
       ∧ (backoffStep ⟨⟨900, 0⟩, ⟨0, 0⟩, ⟨64, 0⟩, ⟨1, 0⟩, ⟨900, 0⟩⟩).deadline =
        timespecadd ⟨900, 0⟩ ⟨1, 0⟩) :=
  ⟨by decide,
   c7_cooloff_resets_backoff ⟨⟨900, 0⟩, ⟨0, 0⟩, ⟨64, 0⟩, ⟨1, 0⟩, ⟨900, 0⟩⟩
     (by decide)⟩

/-- Claim C8 (confirmed): `lbFill` asks `read` for at most
`capacity - 1 - length` bytes; EAGAIN leaves the buffer unchanged with
no log record; any other read error leaves the buffer unchanged and
produces exactly one LOG_ERR record; a successful (partial) read of `bs`
extends the length by exactly `bs.length`, staying under the
capacity. -/
theorem c8_lbFill_contract (buf bs : List Nat)
    (hcap : bs.length ≤ lbFillCap buf) (hlen : buf.length ≤ 1023) :
    lbFill buf .eagain = (buf, [])
    ∧ lbFill buf .fail = (buf, [.readErr])
    ∧ lbFill buf (.bytes bs) = (buf ++ bs, [])
    ∧ (lbFill buf (.bytes bs)).1.length = buf.length + bs.length
    ∧ (lbFill buf (.bytes bs)).1.length ≤ 1023 := by
  refine ⟨rfl, rfl, rfl, by simp [lbFill], ?_⟩
  simp only [lbFill, List.length_append]
  unfold lbFillCap at hcap
  omega

/-- Concrete instantiation of C8 with a one-byte buffer and a two-byte
read. -/
theorem c8_lbFill_contract_witness :
    ([98, 10] : List Nat).length ≤ lbFillCap [97]
    ∧ ([97] : List Nat).length ≤ 1023
    ∧ (lbFill [97] .eagain = ([97], [])
       ∧ lbFill [97] .fail = ([97], [.readErr])
       ∧ lbFill [97] (.bytes [98, 10]) = ([97] ++ [98, 10], [])
       ∧ (lbFill [97] (.bytes [98, 10])).1.length =
          ([97] : List Nat).length + ([98, 10] : List Nat).length
       ∧ (lbFill [97] (.bytes [98, 10])).1.length ≤ 1023) :=
  ⟨by decide, by decide,
   c8_lbFill_contract [97] [98, 10] (by decide) (by decide)⟩

/-- Claim C9 (confirmed): after any `lbFlush` of a buffer satisfying the
asserted precondition `length < 1024`, the new length is again strictly
below the capacity, the full-buffer path empties the buffer, otherwise
the buffer keeps exactly the bytes following the last emitted newline
(restoring the emitted lines with their newlines in front of the kept
remainder reproduces the old content), and any following `lbFill` bounded
by `capacity - 1 - length` keeps the length below 1024, so the assertion
at the start of the next flush never fails. -/
theorem c9_flush_invariant (l : List Nat) (h : l.length < 1024) :
    (lbFlush l).2.length < 1024
    ∧ (l.length = 1023 → (lbFlush l).2 = [])
    ∧ (l.length ≠ 1023 →
        (lbFlush l).2 = (lbFlushLines l).2
        ∧ restoreLines (lbFlushLines l).1 (lbFlushLines l).2 = l)
    ∧ ∀ chunk : List Nat, chunk.length ≤ lbFillCap (lbFlush l).2 →
        ((lbFlush l).2 ++ chunk).length < 1024 := by
  refine ⟨lt_of_le_of_lt lbFlush_rem_length h, ?_, ?_, ?_⟩
  · intro hfull
    unfold lbFlush
    rw [if_pos hfull]
  · intro hfull
    constructor
    · unfold lbFlush
      rw [if_neg hfull]
    · exact lbFlushLines_restore l
  · intro chunk hchunk
    have hrem : (lbFlush l).2.length ≤ l.length := lbFlush_rem_length
    unfold lbFillCap at hchunk
    simp only [List.length_append]
    omega

/-- Concrete instantiation of C9 at the buffer `a`, newline, `b` and a
subsequent read of one byte. -/
theorem c9_flush_invariant_witness :
    ([97, 10, 98] : List Nat).length < 1024
    ∧ ((lbFlush [97, 10, 98]).2.length < 1024
       ∧ (([97, 10, 98] : List Nat).length = 1023 →
            (lbFlush [97, 10, 98]).2 = [])
       ∧ (([97, 10, 98] : List Nat).length ≠ 1023 →
            (lbFlush [97, 10, 98]).2 = (lbFlushLines [97, 10, 98]).2
            ∧ restoreLines (lbFlushLines [97, 10, 98]).1
                (lbFlushLines [97, 10, 98]).2 = [97, 10, 98])
       ∧ ∀ chunk : List Nat,
            chunk.length ≤ lbFillCap (lbFlush [97, 10, 98]).2 →
            ((lbFlush [97, 10, 98]).2 ++ chunk).length < 1024) :=
  ⟨by decide, c9_flush_invariant [97, 10, 98] (by decide)⟩

/-- Claim C10 (confirmed): with both interrupt and terminate pending and
a live child, the drain forwards only SIGINT and clears only the
interrupt flag, leaving terminate pending; re-running the drain on the
resulting state (the next loop iteration) forwards SIGTERM; with no
child alive the loop breaks with both flags still set. -/
theorem c10_int_term_drain :
    (intTermStep ⟨true, true, true, false⟩).forwarded = some SIGINT
    ∧ (intTermStep ⟨true, true, true, false⟩).sigint = false
    ∧ (intTermStep ⟨true, true, true, false⟩).sigterm = true
    ∧ (intTermStep ⟨true, true, true, false⟩).brk = false
    ∧ (intTermStep
        ⟨(intTermStep ⟨true, true, true, false⟩).sigint,
         (intTermStep ⟨true, true, true, false⟩).sigterm,
         true,
         (intTermStep ⟨true, true, true, false⟩).stop⟩).forwarded =
      some SIGTERM
    ∧ (intTermStep
        ⟨(intTermStep ⟨true, true, true, false⟩).sigint,
         (intTermStep ⟨true, true, true, false⟩).sigterm,
         true,
         (intTermStep ⟨true, true, true, false⟩).stop⟩).sigterm = false
    ∧ (intTermStep ⟨true, true, false, false⟩).brk = true
    ∧ (intTermStep ⟨true, true, false, false⟩).sigint = true
    ∧ (intTermStep ⟨true, true, false, false⟩).sigterm = true := by
  decide

end Kitd
